import Mathlib

/-!
Verification development for the bridge-configuration loader of
`ros_gz_bridge` (`src/bridge_config.cpp`).

The embedding mirrors the C++ translation unit:
* `Node` models a `YAML::Node` after the external document parser ran
  (`YAML::Load`): a scalar, a sequence, a map, or the undefined node that
  `operator[]` yields for a missing key.
* yaml-cpp conversions (`as<std::string>`, `as<size_t>`, `as<bool>`) can
  throw; a thrown exception is modelled as `Except.error`, so
  `parseEntry : Node → Except YamlExn (Option BridgeConfig)` returns
  `.ok none` for the C++ `return {}` (logged entry-level failure),
  `.ok (some cfg)` for success, and `.error e` for an exception that
  escapes `parseEntry` (the function has no try/catch).
* `readFromYamlNode` models `readFromYaml` applied to the already-parsed
  document tree.
-/

/-- Modelled from the spec: the `BridgeDirection` enum is declared in
`bridge_config.hpp`, which is not part of the provided sources; the spec
lists exactly the three values below. -/
inductive BridgeDirection where
  | BIDIRECTIONAL
  | GZ_TO_ROS
  | ROS_TO_GZ
deriving Repr, DecidableEq

/-- Modelled from the spec: the `BridgeConfig` struct is declared in
`bridge_config.hpp`, which is not part of the provided sources. The spec
gives the eight fields; `is_lazy` defaults to `false`, `direction` to
`BIDIRECTIONAL`, and the queue sizes to an implementation-defined
default, modelled here by the arbitrary constant 10. -/
structure BridgeConfig where
  ros_topic_name : String
  gz_topic_name : String
  ros_type_name : String
  gz_type_name : String
  direction : BridgeDirection
  publisher_queue_size : Nat
  subscriber_queue_size : Nat
  is_lazy : Bool
deriving Repr, DecidableEq

/-- Modelled from the spec: implementation-defined queue-size default. -/
def defaultQueueSize : Nat := 10

/-- Modelled from the spec: a default-constructed `BridgeConfig`
(topic/type names empty until assigned by the parser). -/
def defaultConfig : BridgeConfig :=
  ⟨"", "", "", "", .BIDIRECTIONAL, defaultQueueSize, defaultQueueSize, false⟩

/-- A parsed YAML document node (`YAML::Node`). `undefinedNode` is the undefined
node returned when indexing a map with a missing key. -/
inductive Node where
  | undefinedNode
  | scalar (s : String)
  | seq (items : List Node)
  | map (fields : List (String × Node))

/-- `YAML::Node::IsMap`. -/
def Node.isMap : Node → Bool
  | .map _ => true
  | _ => false

/-- `YAML::Node::IsSequence`. -/
def Node.isSequence : Node → Bool
  | .seq _ => true
  | _ => false

/-- `YAML::Node::IsDefined`, the test performed by `operator bool` in the
`if (yaml_node[key])` guards. -/
def Node.isDefined : Node → Bool
  | .undefinedNode => false
  | _ => true

/-- Key lookup in the association list backing a map node. -/
def lookupField : List (String × Node) → String → Node
  | [], _ => .undefinedNode
  | (k, v) :: rest, key => if k = key then v else lookupField rest key

/-- `YAML::Node::operator[]` with a string key: on a map, the value stored
under the key, or the undefined node when the key is missing. -/
def Node.get : Node → String → Node
  | .map kvs, key => lookupField kvs key
  | _, _ => .undefinedNode

/-- Exceptions thrown by yaml-cpp node conversions: `InvalidNode` when
converting the undefined node, `BadConversion` when the node cannot be
converted to the requested type. -/
inductive YamlExn where
  | invalidNode
  | badConversion
deriving Repr, DecidableEq

/-- `Node::as<std::string>()`: succeeds exactly on scalar nodes, throws
otherwise. -/
def asString : Node → Except YamlExn String
  | .scalar s => .ok s
  | .undefinedNode => .error .invalidNode
  | _ => .error .badConversion

/-- Decimal digit value of a character, if it is a digit. -/
def digitVal (c : Char) : Option Nat :=
  if 48 ≤ c.toNat && c.toNat ≤ 57 then some (c.toNat - 48) else none

/-- Accumulating decimal reader over a character list. -/
def strToNatAux : List Char → Nat → Option Nat
  | [], acc => some acc
  | c :: cs, acc =>
    match digitVal c with
    | some d => strToNatAux cs (10 * acc + d)
    | none => none

/-- Conversion of a scalar string to an unsigned integer: the whole
string must be a non-empty run of decimal digits. -/
def strToNat (s : String) : Option Nat :=
  match s.data with
  | [] => none
  | c :: cs => strToNatAux (c :: cs) 0

/-- `Node::as<size_t>()`: succeeds on scalar nodes holding an unsigned
decimal number, throws otherwise. -/
def asSizeT : Node → Except YamlExn Nat
  | .scalar s =>
    match strToNat s with
    | some n => .ok n
    | none => .error .badConversion
  | .undefinedNode => .error .invalidNode
  | _ => .error .badConversion

/-- `Node::as<bool>()`: succeeds on the scalar boolean literals yaml-cpp
recognises, throws otherwise. -/
def asBool : Node → Except YamlExn Bool
  | .scalar s =>
    if s = "true" || s = "True" || s = "yes" || s = "on" then .ok true
    else if s = "false" || s = "False" || s = "no" || s = "off" then .ok false
    else .error .badConversion
  | .undefinedNode => .error .invalidNode
  | _ => .error .badConversion

/-- YAML tag string constants (`bridge_config.cpp`, lines 28-36). -/
def kTopicName : String := "topic_name"

def kRosTopicName : String := "ros_topic_name"

def kGzTopicName : String := "gz_topic_name"

def kRosTypeName : String := "ros_type_name"

def kGzTypeName : String := "gz_type_name"

def kDirection : String := "direction"

def kPublisherQueue : String := "publisher_queue"

def kSubscriberQueue : String := "subscriber_queue"

def kLazy : String := "lazy"

/-- Comparison strings for bridge directions (lines 39-41). -/
def kBidirectional : String := "BIDIRECTIONAL"

def kGzToRos : String := "GZ_TO_ROS"

def kRosToGz : String := "ROS_TO_GZ"

/-- Lines 80-97 of `parseEntry`: resolve the direction field.
`.ok (some dir)` means `ret.direction` was assigned `dir`; `.ok none`
means the `return {}` on an unrecognised token; `.error` models the
exception from `as<std::string>()` on a non-scalar value. -/
def parseDirection (node : Node) : Except YamlExn (Option BridgeDirection) :=
  if (node.get kDirection).isDefined then
    match asString (node.get kDirection) with
    | .error e => .error e
    | .ok dirStr =>
      if dirStr = kBidirectional then .ok (some .BIDIRECTIONAL)
      else if dirStr = kGzToRos then .ok (some .GZ_TO_ROS)
      else if dirStr = kRosToGz then .ok (some .ROS_TO_GZ)
      else .ok none
  else .ok (some .BIDIRECTIONAL)

/-- Lines 100-116 of `parseEntry`: resolve the pair
(`gz_topic_name`, `ros_topic_name`), in the assignment order of the
source (gz before ros in the final branch). -/
def resolveTopicNames (node : Node) : Except YamlExn (String × String) :=
  if (node.get kTopicName).isDefined then
    match asString (node.get kTopicName) with
    | .error e => .error e
    | .ok s => .ok (s, s)
  else if (node.get kRosTopicName).isDefined && !(node.get kGzTopicName).isDefined then
    match asString (node.get kRosTopicName) with
    | .error e => .error e
    | .ok s => .ok (s, s)
  else if (node.get kGzTopicName).isDefined && !(node.get kRosTopicName).isDefined then
    match asString (node.get kGzTopicName) with
    | .error e => .error e
    | .ok s => .ok (s, s)
  else
    match asString (node.get kGzTopicName) with
    | .error e => .error e
    | .ok gz =>
      match asString (node.get kRosTopicName) with
      | .error e => .error e
      | .ok ros => .ok (gz, ros)

/-- Lines 121-123: assign `publisher_queue_size` when the field is
present. -/
def applyPublisherQueue (node : Node) (cfg : BridgeConfig) : Except YamlExn BridgeConfig :=
  if (node.get kPublisherQueue).isDefined then
    match asSizeT (node.get kPublisherQueue) with
    | .error e => .error e
    | .ok n => .ok { cfg with publisher_queue_size := n }
  else .ok cfg

/-- Lines 124-126: assign `subscriber_queue_size` when the field is
present. -/
def applySubscriberQueue (node : Node) (cfg : BridgeConfig) : Except YamlExn BridgeConfig :=
  if (node.get kSubscriberQueue).isDefined then
    match asSizeT (node.get kSubscriberQueue) with
    | .error e => .error e
    | .ok n => .ok { cfg with subscriber_queue_size := n }
  else .ok cfg

/-- Lines 127-129: assign `is_lazy` when the field is present. -/
def applyLazy (node : Node) (cfg : BridgeConfig) : Except YamlExn BridgeConfig :=
  if (node.get kLazy).isDefined then
    match asBool (node.get kLazy) with
    | .error e => .error e
    | .ok b => .ok { cfg with is_lazy := b }
  else .ok cfg

/-- Lines 121-129: the three optional-field assignments in source
order. -/
def applyOptions (node : Node) (cfg : BridgeConfig) : Except YamlExn BridgeConfig :=
  match applyPublisherQueue node cfg with
  | .error e => .error e
  | .ok c1 =>
    match applySubscriberQueue node c1 with
    | .error e => .error e
    | .ok c2 => applyLazy node c2

/-- `parseEntry` (lines 46-132): parse a single sequence entry into a
`BridgeConfig`. `.ok none` is the C++ `return {}` (nullopt); `.error`
is an exception escaping the function. -/
def parseEntry (node : Node) : Except YamlExn (Option BridgeConfig) :=
  if !node.isMap then .ok none
  else if (node.get kTopicName).isDefined && (node.get kRosTopicName).isDefined then .ok none
  else if (node.get kTopicName).isDefined && (node.get kGzTopicName).isDefined then .ok none
  else if !(node.get kRosTypeName).isDefined || !(node.get kGzTypeName).isDefined then .ok none
  else
    match parseDirection node with
    | .error e => .error e
    | .ok none => .ok none
    | .ok (some dir) =>
      match resolveTopicNames node with
      | .error e => .error e
      | .ok (gzTopic, rosTopic) =>
        match asString (node.get kGzTypeName) with
        | .error e => .error e
        | .ok gzType =>
          match asString (node.get kRosTypeName) with
          | .error e => .error e
          | .ok rosType =>
            match applyOptions node
                ⟨rosTopic, gzTopic, rosType, gzType, dir,
                  defaultQueueSize, defaultQueueSize, false⟩ with
            | .error e => .error e
            | .ok cfg => .ok (some cfg)

/-- The loop of `readFromYaml` (lines 149-154): parse each element in
order, append successes, skip entry-level failures; an exception thrown
by `parseEntry` aborts the whole loop. -/
def readEntries : List Node → Except YamlExn (List BridgeConfig)
  | [] => .ok []
  | x :: xs =>
    match parseEntry x with
    | .error e => .error e
    | .ok none => readEntries xs
    | .ok (some cfg) =>
      match readEntries xs with
      | .error e => .error e
      | .ok rest => .ok (cfg :: rest)

/-- `readFromYaml` (lines 134-157) applied to the document tree produced
by `YAML::Load`: a non-sequence top level yields the empty list. -/
def readFromYamlNode (node : Node) : Except YamlExn (List BridgeConfig) :=
  match node with
  | .seq xs => readEntries xs
  | _ => .ok []

/-- The successful outcome of `parseEntry`, as an `Option`. -/
def parseOk (node : Node) : Option BridgeConfig :=
  match parseEntry node with
  | .ok (some cfg) => some cfg
  | _ => none

/-- Elements of the top-level node: the sequence items, or nothing when
the top level is not a sequence. -/
def Node.topElems : Node → List Node
  | .seq xs => xs
  | _ => []

/-!
Concrete example entries used by witnesses and counterexamples. Each is
the association list backing one map entry of the top-level sequence.
-/

/-- The spec's `/clock` example entry: unified topic name plus both type
names. -/
def eClock : List (String × Node) :=
  [(kTopicName, .scalar "/clock"), (kRosTypeName, .scalar "rosgraph_msgs/Clock"),
   (kGzTypeName, .scalar "gz.msgs.Clock")]

/-- Expected parse of `eClock`. -/
def cClock : BridgeConfig :=
  ⟨"/clock", "/clock", "rosgraph_msgs/Clock", "gz.msgs.Clock", .BIDIRECTIONAL,
   defaultQueueSize, defaultQueueSize, false⟩

/-- The spec's translate example: both domain-specific topic names,
direction `ROS_TO_GZ`, `lazy: true`. -/
def eInOut : List (String × Node) :=
  [(kRosTopicName, .scalar "/in"), (kGzTopicName, .scalar "/out"),
   (kRosTypeName, .scalar "A"), (kGzTypeName, .scalar "B"),
   (kDirection, .scalar "ROS_TO_GZ"), (kLazy, .scalar "true")]

/-- Expected parse of `eInOut`. -/
def cInOut : BridgeConfig :=
  ⟨"/in", "/out", "A", "B", .ROS_TO_GZ, defaultQueueSize, defaultQueueSize, true⟩

/-- Entry violating the `topic_name`/`ros_topic_name` mutual exclusion. -/
def eMutex : List (String × Node) :=
  [(kTopicName, .scalar "/t"), (kRosTopicName, .scalar "/r"),
   (kRosTypeName, .scalar "A"), (kGzTypeName, .scalar "B")]

/-- Entry missing the required `gz_type_name` field. -/
def eMissingType : List (String × Node) :=
  [(kTopicName, .scalar "/x"), (kRosTypeName, .scalar "A")]

/-- Entry whose `direction` value is not one of the three recognised
tokens (lower case). -/
def eBadDirection : List (String × Node) :=
  [(kTopicName, .scalar "/t"), (kRosTypeName, .scalar "A"),
   (kGzTypeName, .scalar "B"), (kDirection, .scalar "bidirectional")]

/-- Otherwise-valid entry whose `publisher_queue` value is not numeric:
`as<size_t>()` throws on it. -/
def eBadQueue : List (String × Node) :=
  [(kTopicName, .scalar "/t"), (kRosTypeName, .scalar "A"),
   (kGzTypeName, .scalar "B"), (kPublisherQueue, .scalar "abc")]

/-- Otherwise-valid entry whose `lazy` value is not a boolean literal:
`as<bool>()` throws on it. -/
def eBadLazy : List (String × Node) :=
  [(kTopicName, .scalar "/t"), (kRosTypeName, .scalar "A"),
   (kGzTypeName, .scalar "B"), (kLazy, .scalar "maybe")]

/-- Entry with both type names but none of the three topic-name
fields. -/
def eNoTopic : List (String × Node) :=
  [(kRosTypeName, .scalar "A"), (kGzTypeName, .scalar "B")]

/-- Entry using the spec section-6 key spellings `publisher_queue_size`
and `subscriber_queue_size`, which the code does not read. -/
def eQueueSizeKeys : List (String × Node) :=
  [(kTopicName, .scalar "/t"), (kRosTypeName, .scalar "A"),
   (kGzTypeName, .scalar "B"), ("publisher_queue_size", .scalar "42"),
   ("subscriber_queue_size", .scalar "7")]

/-- Parse of `eQueueSizeKeys`: both queue sizes keep their defaults. -/
def cQueueSizeKeys : BridgeConfig :=
  ⟨"/t", "/t", "A", "B", .BIDIRECTIONAL, defaultQueueSize, defaultQueueSize, false⟩

/-- Entry using the keys the code actually reads, `publisher_queue` and
`subscriber_queue`. -/
def eQueues : List (String × Node) :=
  [(kTopicName, .scalar "/q"), (kRosTypeName, .scalar "A"),
   (kGzTypeName, .scalar "B"), (kPublisherQueue, .scalar "42"),
   (kSubscriberQueue, .scalar "7")]

/-- Expected parse of `eQueues`. -/
def cQueues : BridgeConfig :=
  ⟨"/q", "/q", "A", "B", .BIDIRECTIONAL, 42, 7, false⟩

/-!
Helper lemmas: inversion principles for `parseEntry` and its
sub-functions, and the list lemmas about the loader's loop.
-/

theorem Node.get_map (kvs : List (String × Node)) (k : String) :
    (Node.map kvs).get k = lookupField kvs k := rfl

theorem Node.isDefined_eq_false {n : Node} : n.isDefined = false ↔ n = .undefinedNode := by
  cases n <;> simp [Node.isDefined]

theorem asString_ok {n : Node} {s : String} (h : asString n = .ok s) : n = .scalar s := by
  cases n <;> simp_all [asString]

theorem parseEntry_ok_some_inv (kvs : List (String × Node)) (cfg : BridgeConfig)
    (h : parseEntry (.map kvs) = .ok (some cfg)) :
    ((lookupField kvs kTopicName).isDefined && (lookupField kvs kRosTopicName).isDefined) = false ∧
    ((lookupField kvs kTopicName).isDefined && (lookupField kvs kGzTopicName).isDefined) = false ∧
    (lookupField kvs kRosTypeName).isDefined = true ∧
    (lookupField kvs kGzTypeName).isDefined = true ∧
    ∃ dir gzT rosT gzTy rosTy,
      parseDirection (.map kvs) = .ok (some dir) ∧
      resolveTopicNames (.map kvs) = .ok (gzT, rosT) ∧
      asString (lookupField kvs kGzTypeName) = .ok gzTy ∧
      asString (lookupField kvs kRosTypeName) = .ok rosTy ∧
      applyOptions (.map kvs)
        ⟨rosT, gzT, rosTy, gzTy, dir, defaultQueueSize, defaultQueueSize, false⟩ = .ok cfg := by
  unfold parseEntry at h
  simp only [Node.isMap, Node.get_map, Bool.not_true, Bool.false_eq_true, if_false,
    Bool.not_eq_true', Bool.or_eq_true, Bool.not_eq_true] at h
  split at h
  · exact absurd h (by simp)
  · split at h
    · exact absurd h (by simp)
    · split at h
      · exact absurd h (by simp)
      · rename_i h1 h2 h3
        rw [not_or] at h3
        simp only [Bool.not_eq_false] at h3
        split at h
        · exact absurd h (by simp)
        · exact absurd h (by simp)
        · rename_i dir hdir
          split at h
          · exact absurd h (by simp)
          · rename_i gzT rosT htop
            split at h
            · exact absurd h (by simp)
            · rename_i gzTy hgzTy
              split at h
              · exact absurd h (by simp)
              · rename_i rosTy hrosTy
                split at h
                · exact absurd h (by simp)
                · rename_i cfg0 hopts
                  obtain rfl : cfg0 = cfg := by simpa using h
                  exact ⟨by simpa using h1, by simpa using h2, h3.1, h3.2,
                    dir, gzT, rosT, gzTy, rosTy, hdir, htop, hgzTy, hrosTy, hopts⟩

theorem parseDirection_inv (kvs : List (String × Node)) (d : BridgeDirection)
    (h : parseDirection (.map kvs) = .ok (some d)) :
    ((lookupField kvs kDirection).isDefined = false → d = .BIDIRECTIONAL) ∧
    (∀ s, lookupField kvs kDirection = .scalar s →
      (s = kBidirectional ∧ d = .BIDIRECTIONAL) ∨
      (s = kGzToRos ∧ d = .GZ_TO_ROS) ∨
      (s = kRosToGz ∧ d = .ROS_TO_GZ)) := by
  unfold parseDirection at h
  rw [Node.get_map] at h
  constructor
  · intro hu
    rw [hu] at h
    simp at h
    exact h.symm
  · intro s hs
    rw [hs] at h
    simp only [Node.isDefined, if_true, asString] at h
    split at h
    · rename_i ht; simp at h; exact Or.inl ⟨ht, h.symm⟩
    · split at h
      · rename_i _ ht; simp at h; exact Or.inr (Or.inl ⟨ht, h.symm⟩)
      · split at h
        · rename_i _ _ ht; simp at h; exact Or.inr (Or.inr ⟨ht, h.symm⟩)
        · exact absurd h (by simp)

theorem resolveTopicNames_inv (kvs : List (String × Node)) (gzT rosT : String)
    (h : resolveTopicNames (.map kvs) = .ok (gzT, rosT)) :
    ((lookupField kvs kTopicName).isDefined = true →
      lookupField kvs kTopicName = .scalar rosT ∧ gzT = rosT) ∧
    ((lookupField kvs kTopicName).isDefined = false →
     (lookupField kvs kRosTopicName).isDefined = true →
     (lookupField kvs kGzTopicName).isDefined = false →
      lookupField kvs kRosTopicName = .scalar rosT ∧ gzT = rosT) ∧
    ((lookupField kvs kTopicName).isDefined = false →
     (lookupField kvs kGzTopicName).isDefined = true →
     (lookupField kvs kRosTopicName).isDefined = false →
      lookupField kvs kGzTopicName = .scalar rosT ∧ gzT = rosT) ∧
    ((lookupField kvs kTopicName).isDefined = false →
     (lookupField kvs kRosTopicName).isDefined = true →
     (lookupField kvs kGzTopicName).isDefined = true →
      lookupField kvs kRosTopicName = .scalar rosT ∧
      lookupField kvs kGzTopicName = .scalar gzT) := by
  unfold resolveTopicNames at h
  simp only [Node.get_map] at h
  refine ⟨?_, ?_, ?_, ?_⟩
  · intro ht
    simp only [ht, if_true] at h
    split at h
    · exact absurd h (by simp)
    · rename_i s hs
      simp only [Except.ok.injEq, Prod.mk.injEq] at h
      obtain ⟨rfl, rfl⟩ := h
      exact ⟨asString_ok hs, rfl⟩
  · intro ht hr hg
    simp only [ht, hr, hg, Bool.false_eq_true, if_false, Bool.not_false, Bool.and_true,
      if_true] at h
    split at h
    · exact absurd h (by simp)
    · rename_i s hs
      simp only [Except.ok.injEq, Prod.mk.injEq] at h
      obtain ⟨rfl, rfl⟩ := h
      exact ⟨asString_ok hs, rfl⟩
  · intro ht hg hr
    simp only [ht, hr, hg, Bool.false_eq_true, if_false, Bool.not_false, Bool.and_true,
      Bool.and_false, Bool.true_and, Bool.false_and, if_true] at h
    split at h
    · exact absurd h (by simp)
    · rename_i s hs
      simp only [Except.ok.injEq, Prod.mk.injEq] at h
      obtain ⟨rfl, rfl⟩ := h
      exact ⟨asString_ok hs, rfl⟩
  · intro ht hr hg
    simp only [ht, hr, hg, Bool.false_eq_true, if_false, Bool.not_true, Bool.and_false,
      Bool.false_and, Bool.true_and, Bool.and_true] at h
    split at h
    · exact absurd h (by simp)
    · rename_i gz hgz
      split at h
      · exact absurd h (by simp)
      · rename_i ros hros
        simp only [Except.ok.injEq, Prod.mk.injEq] at h
        obtain ⟨rfl, rfl⟩ := h
        exact ⟨asString_ok hros, asString_ok hgz⟩

theorem applyPublisherQueue_inv (node : Node) (c c' : BridgeConfig)
    (h : applyPublisherQueue node c = .ok c') :
    (c'.ros_topic_name = c.ros_topic_name ∧ c'.gz_topic_name = c.gz_topic_name ∧
     c'.ros_type_name = c.ros_type_name ∧ c'.gz_type_name = c.gz_type_name ∧
     c'.direction = c.direction ∧ c'.subscriber_queue_size = c.subscriber_queue_size ∧
     c'.is_lazy = c.is_lazy) ∧
    ((node.get kPublisherQueue).isDefined = false →
      c'.publisher_queue_size = c.publisher_queue_size) ∧
    (∀ s n, node.get kPublisherQueue = .scalar s → strToNat s = some n →
      c'.publisher_queue_size = n) := by
  unfold applyPublisherQueue at h
  split at h
  · rename_i hdef
    split at h
    · exact absurd h (by simp)
    · rename_i n hn
      obtain rfl : { c with publisher_queue_size := n } = c' := by simpa using h
      refine ⟨⟨rfl, rfl, rfl, rfl, rfl, rfl, rfl⟩, ?_, ?_⟩
      · intro hf; rw [hf] at hdef; cases hdef
      · intro s m hs hm
        rw [hs] at hn
        simp [asSizeT, hm] at hn
        simpa using hn.symm
  · rename_i hdef
    obtain rfl : c = c' := by simpa using h
    refine ⟨⟨rfl, rfl, rfl, rfl, rfl, rfl, rfl⟩, fun _ => rfl, ?_⟩
    intro s m hs _
    rw [hs] at hdef
    exact absurd rfl hdef

theorem applySubscriberQueue_inv (node : Node) (c c' : BridgeConfig)
    (h : applySubscriberQueue node c = .ok c') :
    (c'.ros_topic_name = c.ros_topic_name ∧ c'.gz_topic_name = c.gz_topic_name ∧
     c'.ros_type_name = c.ros_type_name ∧ c'.gz_type_name = c.gz_type_name ∧
     c'.direction = c.direction ∧ c'.publisher_queue_size = c.publisher_queue_size ∧
     c'.is_lazy = c.is_lazy) ∧
    ((node.get kSubscriberQueue).isDefined = false →
      c'.subscriber_queue_size = c.subscriber_queue_size) ∧
    (∀ s n, node.get kSubscriberQueue = .scalar s → strToNat s = some n →
      c'.subscriber_queue_size = n) := by
  unfold applySubscriberQueue at h
  split at h
  · rename_i hdef
    split at h
    · exact absurd h (by simp)
    · rename_i n hn
      obtain rfl : { c with subscriber_queue_size := n } = c' := by simpa using h
      refine ⟨⟨rfl, rfl, rfl, rfl, rfl, rfl, rfl⟩, ?_, ?_⟩
      · intro hf; rw [hf] at hdef; cases hdef
      · intro s m hs hm
        rw [hs] at hn
        simp [asSizeT, hm] at hn
        simpa using hn.symm
  · rename_i hdef
    obtain rfl : c = c' := by simpa using h
    refine ⟨⟨rfl, rfl, rfl, rfl, rfl, rfl, rfl⟩, fun _ => rfl, ?_⟩
    intro s m hs _
    rw [hs] at hdef
    exact absurd rfl hdef

theorem applyLazy_inv (node : Node) (c c' : BridgeConfig)
    (h : applyLazy node c = .ok c') :
    c'.ros_topic_name = c.ros_topic_name ∧ c'.gz_topic_name = c.gz_topic_name ∧
    c'.ros_type_name = c.ros_type_name ∧ c'.gz_type_name = c.gz_type_name ∧
    c'.direction = c.direction ∧ c'.publisher_queue_size = c.publisher_queue_size ∧
    c'.subscriber_queue_size = c.subscriber_queue_size := by
  unfold applyLazy at h
  split at h
  · split at h
    · exact absurd h (by simp)
    · rename_i b hb
      obtain rfl : { c with is_lazy := b } = c' := by simpa using h
      exact ⟨rfl, rfl, rfl, rfl, rfl, rfl, rfl⟩
  · obtain rfl : c = c' := by simpa using h
    exact ⟨rfl, rfl, rfl, rfl, rfl, rfl, rfl⟩

theorem applyOptions_inv (node : Node) (c c' : BridgeConfig)
    (h : applyOptions node c = .ok c') :
    (c'.ros_topic_name = c.ros_topic_name ∧ c'.gz_topic_name = c.gz_topic_name ∧
     c'.ros_type_name = c.ros_type_name ∧ c'.gz_type_name = c.gz_type_name ∧
     c'.direction = c.direction) ∧
    ((node.get kPublisherQueue).isDefined = false →
      c'.publisher_queue_size = c.publisher_queue_size) ∧
    (∀ s n, node.get kPublisherQueue = .scalar s → strToNat s = some n →
      c'.publisher_queue_size = n) ∧
    ((node.get kSubscriberQueue).isDefined = false →
      c'.subscriber_queue_size = c.subscriber_queue_size) ∧
    (∀ s n, node.get kSubscriberQueue = .scalar s → strToNat s = some n →
      c'.subscriber_queue_size = n) := by
  unfold applyOptions at h
  split at h
  · exact absurd h (by simp)
  · rename_i c1 h1
    split at h
    · exact absurd h (by simp)
    · rename_i c2 h2
      obtain ⟨f1, q1def, q1val⟩ := applyPublisherQueue_inv node c c1 h1
      obtain ⟨f2, q2def, q2val⟩ := applySubscriberQueue_inv node c1 c2 h2
      obtain f3 := applyLazy_inv node c2 c' h
      refine ⟨⟨?_, ?_, ?_, ?_, ?_⟩, ?_, ?_, ?_, ?_⟩
      · rw [f3.1, f2.1, f1.1]
      · rw [f3.2.1, f2.2.1, f1.2.1]
      · rw [f3.2.2.1, f2.2.2.1, f1.2.2.1]
      · rw [f3.2.2.2.1, f2.2.2.2.1, f1.2.2.2.1]
      · rw [f3.2.2.2.2.1, f2.2.2.2.2.1, f1.2.2.2.2.1]
      · intro hp
        rw [f3.2.2.2.2.2.1, f2.2.2.2.2.2.1, q1def hp]
      · intro s n hs hn
        rw [f3.2.2.2.2.2.1, f2.2.2.2.2.2.1, q1val s n hs hn]
      · intro hp
        rw [f3.2.2.2.2.2.2, q2def hp, f1.2.2.2.2.2.1]
      · intro s n hs hn
        rw [f3.2.2.2.2.2.2, q2val s n hs hn]

theorem readEntries_skip (x : Node) (hx : parseEntry x = .ok none) :
    ∀ pre post, readEntries (pre ++ x :: post) = readEntries (pre ++ post) := by
  intro pre post
  induction pre with
  | nil => simp [readEntries, hx]
  | cons y ys ih =>
    simp only [List.cons_append, readEntries, List.append_eq]
    rw [ih]

theorem readEntries_ok (xs : List Node) (l : List BridgeConfig)
    (h : readEntries xs = .ok l) : l = xs.filterMap parseOk := by
  induction xs generalizing l with
  | nil =>
    simp only [readEntries, Except.ok.injEq] at h
    simp [h.symm]
  | cons x xs ih =>
    simp only [readEntries] at h
    cases hx : parseEntry x with
    | error e => rw [hx] at h; cases h
    | ok o =>
      rw [hx] at h
      cases o with
      | none =>
        rw [List.filterMap_cons]
        simp only [parseOk, hx]
        exact ih l h
      | some cfg =>
        cases hrest : readEntries xs with
        | error e => rw [hrest] at h; cases h
        | ok rest =>
          rw [hrest] at h
          simp only [Except.ok.injEq] at h
          rw [List.filterMap_cons]
          simp only [parseOk, hx]
          rw [← h, ih rest hrest]

theorem filter_isSome_map_eq (xs : List Node) :
    (xs.filter fun x => (parseOk x).isSome).map parseOk =
      (xs.filterMap parseOk).map some := by
  induction xs with
  | nil => rfl
  | cons x xs ih =>
    rw [List.filterMap_cons]
    cases hx : parseOk x with
    | none => simpa [List.filter_cons, hx] using ih
    | some cfg => simpa [List.filter_cons, hx] using ih

/-!
Claim theorems.
-/

/-- Claim C1: for every map entry that passes validation (successful
parse), the topic names are resolved by four mutually exclusive cases:
a unified `topic_name` sets both names to its value; only
`ros_topic_name` sets both to its value; only `gz_topic_name` sets both
to its value; and when both domain-specific fields are present,
`ros_topic_name` takes the `ros_topic_name` field and `gz_topic_name`
takes the `gz_topic_name` field, without swapping. -/
theorem parseEntry_topic_name_cases (kvs : List (String × Node)) (cfg : BridgeConfig)
    (h : parseEntry (.map kvs) = .ok (some cfg)) :
    ((lookupField kvs kTopicName).isDefined = true →
      lookupField kvs kTopicName = .scalar cfg.ros_topic_name ∧
      cfg.gz_topic_name = cfg.ros_topic_name) ∧
    ((lookupField kvs kTopicName).isDefined = false →
     (lookupField kvs kRosTopicName).isDefined = true →
     (lookupField kvs kGzTopicName).isDefined = false →
      lookupField kvs kRosTopicName = .scalar cfg.ros_topic_name ∧
      cfg.gz_topic_name = cfg.ros_topic_name) ∧
    ((lookupField kvs kTopicName).isDefined = false →
     (lookupField kvs kGzTopicName).isDefined = true →
     (lookupField kvs kRosTopicName).isDefined = false →
      lookupField kvs kGzTopicName = .scalar cfg.ros_topic_name ∧
      cfg.gz_topic_name = cfg.ros_topic_name) ∧
    ((lookupField kvs kRosTopicName).isDefined = true →
     (lookupField kvs kGzTopicName).isDefined = true →
      lookupField kvs kRosTopicName = .scalar cfg.ros_topic_name ∧
      lookupField kvs kGzTopicName = .scalar cfg.gz_topic_name) := by
  obtain ⟨hex1, _, _, _, dir, gzT, rosT, gzTy, rosTy, _, htop, _, _, hopts⟩ :=
    parseEntry_ok_some_inv kvs cfg h
  obtain ⟨⟨e1, e2, _, _, _⟩, _⟩ := applyOptions_inv _ _ _ hopts
  obtain ⟨c1, c2, c3, c4⟩ := resolveTopicNames_inv kvs gzT rosT htop
  refine ⟨?_, ?_, ?_, ?_⟩
  · intro ht
    obtain ⟨ha, hb⟩ := c1 ht
    exact ⟨by rw [e1]; exact ha, by rw [e1, e2]; exact hb⟩
  · intro ht hr hg
    obtain ⟨ha, hb⟩ := c2 ht hr hg
    exact ⟨by rw [e1]; exact ha, by rw [e1, e2]; exact hb⟩
  · intro ht hg hr
    obtain ⟨ha, hb⟩ := c3 ht hg hr
    exact ⟨by rw [e1]; exact ha, by rw [e1, e2]; exact hb⟩
  · intro hr hg
    have ht : (lookupField kvs kTopicName).isDefined = false := by
      cases htd : (lookupField kvs kTopicName).isDefined
      · rfl
      · rw [htd, hr] at hex1; cases hex1
    obtain ⟨ha, hb⟩ := c4 ht hr hg
    exact ⟨by rw [e1]; exact ha, by rw [e2]; exact hb⟩

/-- Witness for C1: the spec's translate example, both domain-specific
topic names set to different values, preserved without swapping. -/
theorem parseEntry_topic_name_cases_witness :
    lookupField eInOut kRosTopicName = Node.scalar cInOut.ros_topic_name ∧
    lookupField eInOut kGzTopicName = Node.scalar cInOut.gz_topic_name :=
  (parseEntry_topic_name_cases eInOut cInOut rfl).2.2.2 rfl rfl

/-- Claim C2: for every entry in which the unified `topic_name` field is
present together with `ros_topic_name` or `gz_topic_name`, `parseEntry`
fails (returns no `BridgeConfig`) and the entry is excluded from the
loader's output list. -/
theorem parseEntry_topic_name_mutex (kvs : List (String × Node))
    (ht : (lookupField kvs kTopicName).isDefined = true)
    (hor : (lookupField kvs kRosTopicName).isDefined = true ∨
           (lookupField kvs kGzTopicName).isDefined = true) :
    parseEntry (.map kvs) = .ok none ∧
    ∀ pre post, readEntries (pre ++ .map kvs :: post) = readEntries (pre ++ post) := by
  have hfail : parseEntry (.map kvs) = .ok none := by
    unfold parseEntry
    rcases hor with hr | hg
    · simp [Node.isMap, Node.get_map, ht, hr]
    · cases hr : (lookupField kvs kRosTopicName).isDefined
      · simp [Node.isMap, Node.get_map, ht, hr, hg]
      · simp [Node.isMap, Node.get_map, ht, hr]
  exact ⟨hfail, readEntries_skip _ hfail⟩

/-- Witness for C2: an entry with both `topic_name` and `ros_topic_name`
is rejected and dropped from a surrounding document. -/
theorem parseEntry_topic_name_mutex_witness :
    parseEntry (.map eMutex) = .ok none ∧
    readEntries ([Node.map eClock] ++ Node.map eMutex :: [Node.map eInOut]) =
      readEntries ([Node.map eClock] ++ [Node.map eInOut]) :=
  ⟨(parseEntry_topic_name_mutex eMutex rfl (Or.inl rfl)).1,
   (parseEntry_topic_name_mutex eMutex rfl (Or.inl rfl)).2 [Node.map eClock] [Node.map eInOut]⟩

/-- Claim C3: if the `direction` field is absent the parsed direction is
`BIDIRECTIONAL`; if present with a string value, the value must equal
(case-sensitively) one of `BIDIRECTIONAL`, `GZ_TO_ROS`, `ROS_TO_GZ`,
which map to the matching enum value, and any other string value makes
the entry parse fail. -/
theorem parseEntry_direction_tokens (kvs : List (String × Node)) (cfg : BridgeConfig) :
    (parseEntry (.map kvs) = .ok (some cfg) →
      (lookupField kvs kDirection).isDefined = false →
      cfg.direction = .BIDIRECTIONAL) ∧
    (∀ s, parseEntry (.map kvs) = .ok (some cfg) →
      lookupField kvs kDirection = .scalar s →
      (s = kBidirectional ∧ cfg.direction = .BIDIRECTIONAL) ∨
      (s = kGzToRos ∧ cfg.direction = .GZ_TO_ROS) ∨
      (s = kRosToGz ∧ cfg.direction = .ROS_TO_GZ)) ∧
    (∀ s, lookupField kvs kDirection = .scalar s →
      s ≠ kBidirectional → s ≠ kGzToRos → s ≠ kRosToGz →
      parseEntry (.map kvs) = .ok none) := by
  refine ⟨?_, ?_, ?_⟩
  · intro h hu
    obtain ⟨_, _, _, _, dir, gzT, rosT, gzTy, rosTy, hdir, _, _, _, hopts⟩ :=
      parseEntry_ok_some_inv kvs cfg h
    obtain ⟨⟨_, _, _, _, e5⟩, _⟩ := applyOptions_inv _ _ _ hopts
    rw [e5, (parseDirection_inv kvs dir hdir).1 hu]
  · intro s h hs
    obtain ⟨_, _, _, _, dir, gzT, rosT, gzTy, rosTy, hdir, _, _, _, hopts⟩ :=
      parseEntry_ok_some_inv kvs cfg h
    obtain ⟨⟨_, _, _, _, e5⟩, _⟩ := applyOptions_inv _ _ _ hopts
    rcases (parseDirection_inv kvs dir hdir).2 s hs with ⟨hv, hd⟩ | ⟨hv, hd⟩ | ⟨hv, hd⟩
    · exact Or.inl ⟨hv, by rw [e5, hd]⟩
    · exact Or.inr (Or.inl ⟨hv, by rw [e5, hd]⟩)
    · exact Or.inr (Or.inr ⟨hv, by rw [e5, hd]⟩)
  · intro s hs h1 h2 h3
    have hpd : parseDirection (.map kvs) = .ok none := by
      unfold parseDirection
      rw [Node.get_map, hs]
      simp [asString, Node.isDefined, h1, h2, h3]
    unfold parseEntry
    simp only [Node.isMap, Bool.not_true, Bool.false_eq_true, if_false]
    split
    · rfl
    · split
      · rfl
      · split
        · rfl
        · rw [hpd]

/-- Witness for C3: `direction: GZ_TO_ROS` yields exactly `GZ_TO_ROS`,
and the lower-case token `bidirectional` is a parse failure. -/
theorem parseEntry_direction_tokens_witness :
    (("GZ_TO_ROS" = kBidirectional ∧ BridgeDirection.GZ_TO_ROS = .BIDIRECTIONAL) ∨
     ("GZ_TO_ROS" = kGzToRos ∧ BridgeDirection.GZ_TO_ROS = .GZ_TO_ROS) ∨
     ("GZ_TO_ROS" = kRosToGz ∧ BridgeDirection.GZ_TO_ROS = .ROS_TO_GZ)) ∧
    parseEntry (.map eBadDirection) = .ok none := by
  constructor
  · have := (parseEntry_direction_tokens
      [(kTopicName, .scalar "/d"), (kRosTypeName, .scalar "A"),
       (kGzTypeName, .scalar "B"), (kDirection, .scalar "GZ_TO_ROS")]
      ⟨"/d", "/d", "A", "B", .GZ_TO_ROS, defaultQueueSize, defaultQueueSize, false⟩).2.1
      "GZ_TO_ROS" rfl rfl
    simpa using this
  · exact (parseEntry_direction_tokens eBadDirection defaultConfig).2.2
      "bidirectional" rfl (by decide) (by decide) (by decide)

/-- Claim C4: an entry missing `ros_type_name` or `gz_type_name` fails
to parse and is excluded from the loader's output; a successful parse
carries both type-name field values verbatim. -/
theorem parseEntry_type_names (kvs : List (String × Node)) (cfg : BridgeConfig) :
    (((lookupField kvs kRosTypeName).isDefined = false ∨
      (lookupField kvs kGzTypeName).isDefined = false) →
      parseEntry (.map kvs) = .ok none ∧
      ∀ pre post, readEntries (pre ++ .map kvs :: post) = readEntries (pre ++ post)) ∧
    (parseEntry (.map kvs) = .ok (some cfg) →
      lookupField kvs kRosTypeName = .scalar cfg.ros_type_name ∧
      lookupField kvs kGzTypeName = .scalar cfg.gz_type_name) := by
  constructor
  · intro hmiss
    have hfail : parseEntry (.map kvs) = .ok none := by
      unfold parseEntry
      simp only [Node.isMap, Bool.not_true, Bool.false_eq_true, if_false, Node.get_map]
      split
      · rfl
      · split
        · rfl
        · split
          · rfl
          · rename_i hcond
            exfalso
            rcases hmiss with hm | hm <;> simp [hm] at hcond
    exact ⟨hfail, readEntries_skip _ hfail⟩
  · intro h
    obtain ⟨_, _, _, _, dir, gzT, rosT, gzTy, rosTy, _, _, hgzTy, hrosTy, hopts⟩ :=
      parseEntry_ok_some_inv kvs cfg h
    obtain ⟨⟨_, _, e3, e4, _⟩, _⟩ := applyOptions_inv _ _ _ hopts
    exact ⟨by rw [e3]; exact asString_ok hrosTy, by rw [e4]; exact asString_ok hgzTy⟩

/-- Witness for C4: an entry missing `gz_type_name` is rejected and
dropped; a successful entry carries its type names verbatim. -/
theorem parseEntry_type_names_witness :
    parseEntry (.map eMissingType) = .ok none ∧
    readEntries ([Node.map eClock] ++ Node.map eMissingType :: [Node.map eInOut]) =
      readEntries ([Node.map eClock] ++ [Node.map eInOut]) ∧
    lookupField eClock kRosTypeName = Node.scalar cClock.ros_type_name ∧
    lookupField eClock kGzTypeName = Node.scalar cClock.gz_type_name :=
  ⟨((parseEntry_type_names eMissingType defaultConfig).1 (Or.inr rfl)).1,
   ((parseEntry_type_names eMissingType defaultConfig).1 (Or.inr rfl)).2
     [Node.map eClock] [Node.map eInOut],
   (parseEntry_type_names eClock cClock).2 rfl⟩

/-- Counterexample to C5 as stated: an otherwise-valid entry carrying a
`publisher_queue_size` field (value 42) and a `subscriber_queue_size`
field (value 7) parses successfully, but both queue sizes keep their
defaults — the code reads the keys `publisher_queue` and
`subscriber_queue` instead. -/
theorem parseEntry_queue_size_key_counterexample :
    parseEntry (.map eQueueSizeKeys) = .ok (some cQueueSizeKeys) ∧
    lookupField eQueueSizeKeys "publisher_queue_size" = Node.scalar "42" ∧
    cQueueSizeKeys.publisher_queue_size ≠ 42 ∧
    lookupField eQueueSizeKeys "subscriber_queue_size" = Node.scalar "7" ∧
    cQueueSizeKeys.subscriber_queue_size ≠ 7 ∧
    cQueueSizeKeys.publisher_queue_size = defaultConfig.publisher_queue_size ∧
    cQueueSizeKeys.subscriber_queue_size = defaultConfig.subscriber_queue_size :=
  ⟨rfl, rfl, by decide, rfl, by decide, rfl, rfl⟩

/-- Claim C5 (amended): the fields the code reads are `publisher_queue`
and `subscriber_queue`: for every successfully parsed entry, when such a
field is present the corresponding `BridgeConfig` queue size equals the
field's numeric value, and when it is absent the `BridgeConfig` keeps
its default. -/
theorem parseEntry_queue_fields (kvs : List (String × Node)) (cfg : BridgeConfig)
    (h : parseEntry (.map kvs) = .ok (some cfg)) :
    ((lookupField kvs kPublisherQueue).isDefined = false →
      cfg.publisher_queue_size = defaultConfig.publisher_queue_size) ∧
    (∀ s n, lookupField kvs kPublisherQueue = .scalar s → strToNat s = some n →
      cfg.publisher_queue_size = n) ∧
    ((lookupField kvs kSubscriberQueue).isDefined = false →
      cfg.subscriber_queue_size = defaultConfig.subscriber_queue_size) ∧
    (∀ s n, lookupField kvs kSubscriberQueue = .scalar s → strToNat s = some n →
      cfg.subscriber_queue_size = n) := by
  obtain ⟨_, _, _, _, dir, gzT, rosT, gzTy, rosTy, _, _, _, _, hopts⟩ :=
    parseEntry_ok_some_inv kvs cfg h
  obtain ⟨_, q1d, q1v, q2d, q2v⟩ := applyOptions_inv _ _ _ hopts
  exact ⟨fun hp => q1d hp, q1v, fun hp => q2d hp, q2v⟩

/-- Witness for C5 (amended): `publisher_queue: 42` and
`subscriber_queue: 7` are taken over; an entry without them keeps the
defaults. -/
theorem parseEntry_queue_fields_witness :
    cQueues.publisher_queue_size = 42 ∧
    cQueues.subscriber_queue_size = 7 ∧
    cClock.publisher_queue_size = defaultConfig.publisher_queue_size ∧
    cClock.subscriber_queue_size = defaultConfig.subscriber_queue_size :=
  ⟨(parseEntry_queue_fields eQueues cQueues rfl).2.1 "42" 42 rfl rfl,
   (parseEntry_queue_fields eQueues cQueues rfl).2.2.2 "7" 7 rfl rfl,
   (parseEntry_queue_fields eClock cClock rfl).1 rfl,
   (parseEntry_queue_fields eClock cClock rfl).2.2.1 rfl⟩

/-- Claim C6: whenever the loader returns a list for a top-level
sequence, that list is exactly the order-preserving filter-map of the
sequence through the entry parser: each element is parsed in document
order, successes are appended, failures skipped. -/
theorem readFromYaml_ordered (xs : List Node) (l : List BridgeConfig)
    (h : readFromYamlNode (.seq xs) = .ok l) :
    l = xs.filterMap parseOk :=
  readEntries_ok xs l h

/-- Witness for C6: a three-entry sequence whose second entry is invalid
(missing a type name) yields a two-element list holding the first and
third entries' parses in original order. -/
theorem readFromYaml_ordered_witness :
    readFromYamlNode (.seq [.map eClock, .map eMissingType, .map eInOut]) =
      .ok [cClock, cInOut] ∧
    [cClock, cInOut] =
      ([Node.map eClock, Node.map eMissingType, Node.map eInOut]).filterMap parseOk :=
  ⟨rfl, readFromYaml_ordered [Node.map eClock, Node.map eMissingType, Node.map eInOut]
    [cClock, cInOut] rfl⟩

/-- Counterexample to C7 as stated: returning an empty list on a
non-sequence top level is not the only whole-document failure mode — a
top-level sequence holding an entry whose `lazy` value fails boolean
conversion makes the whole load abort with an exception instead of
returning a list. -/
theorem readFromYaml_whole_document_counterexample :
    Node.isSequence (.seq [.map eBadLazy]) = true ∧
    readFromYamlNode (.seq [.map eBadLazy]) = .error .badConversion :=
  ⟨rfl, rfl⟩

/-- Claim C7 (amended): every input whose top-level value is not a
sequence (for example a map) yields an empty list; besides this, a load
whose top level is a sequence can also fail as a whole, when an entry's
field conversion throws an exception that propagates to the caller. -/
theorem readFromYaml_top_level (node : Node) :
    (node.isSequence = false → readFromYamlNode node = .ok []) ∧
    readFromYamlNode (.seq [.map eBadLazy]) = .error .badConversion := by
  constructor
  · intro hns
    cases node <;> simp_all [Node.isSequence, readFromYamlNode]
  · rfl

/-- Witness for C7 (amended): a top-level map yields the empty list. -/
theorem readFromYaml_top_level_witness :
    readFromYamlNode (.map eClock) = .ok [] :=
  (readFromYaml_top_level (.map eClock)).1 rfl

/-- Counterexample to C8 as stated: a malformed numeric field value is
not recovered locally as a parse failure — `parseEntry` raises a
conversion exception on a non-numeric `publisher_queue` value, and the
exception aborts the whole load, so the following valid entry is never
processed. -/
theorem parseEntry_conversion_exception_counterexample :
    parseEntry (.map eBadQueue) = .error .badConversion ∧
    readFromYamlNode (.seq [.map eBadQueue, .map eClock]) = .error .badConversion ∧
    parseEntry (.map eClock) = .ok (some cClock) :=
  ⟨rfl, rfl, rfl⟩

/-- Claim C8 (amended): entry-level validation failures (`parseEntry`
returning no result) are recovered locally — the entry is dropped and
the loop continues with the remaining entries — but a malformed numeric
field value in an otherwise-valid entry makes `parseEntry` throw a
conversion exception, and an exception from `parseEntry` propagates out
of the loader's loop, aborting the remaining entries. -/
theorem parseEntry_error_policy (x : Node) (rest : List Node) :
    (parseEntry x = .ok none → readEntries (x :: rest) = readEntries rest) ∧
    (∀ e, parseEntry x = .error e → readEntries (x :: rest) = .error e) ∧
    (∀ kvs t a b s, x = Node.map kvs →
      lookupField kvs kTopicName = .scalar t →
      (lookupField kvs kRosTopicName).isDefined = false →
      (lookupField kvs kGzTopicName).isDefined = false →
      lookupField kvs kRosTypeName = .scalar a →
      lookupField kvs kGzTypeName = .scalar b →
      (lookupField kvs kDirection).isDefined = false →
      lookupField kvs kPublisherQueue = .scalar s →
      strToNat s = none →
      parseEntry x = .error .badConversion) := by
  refine ⟨?_, ?_, ?_⟩
  · intro h
    simp [readEntries, h]
  · intro e h
    simp [readEntries, h]
  · intro kvs t a b s hx ht hros hgz hat hbt hdir hpq hsn
    subst hx
    rw [Node.isDefined_eq_false] at hros hgz hdir
    unfold parseEntry parseDirection resolveTopicNames applyOptions applyPublisherQueue
    simp [Node.isMap, Node.get_map, ht, hros, hgz, hat, hbt, hdir, hpq, hsn,
      Node.isDefined, asString, asSizeT]

/-- Witness for C8 (amended): the non-numeric `publisher_queue` entry
makes the loop abort with the exception, while a validation failure
(mutual exclusion) is skipped and processing continues. -/
theorem parseEntry_error_policy_witness :
    readEntries [Node.map eBadQueue] = .error .badConversion ∧
    readEntries (Node.map eMutex :: [Node.map eClock]) = readEntries [Node.map eClock] :=
  ⟨(parseEntry_error_policy (.map eBadQueue) []).2.1 .badConversion
    ((parseEntry_error_policy (.map eBadQueue) []).2.2 eBadQueue "/t" "A" "B" "abc"
      rfl rfl rfl rfl rfl rfl rfl rfl rfl),
   (parseEntry_error_policy (.map eMutex) [Node.map eClock]).1 rfl⟩

/-- Claim C9: a map entry holding both required type names but none of
the three topic-name fields never yields a cleanly resolved
`BridgeConfig`: the topic-name resolution falls through to its final
branch and converts absent nodes to strings, so (when the direction
check does not fail first) the parse ends in the conversion-error path
rather than in any of the four documented cases. -/
theorem parseEntry_no_topic_fields (kvs : List (String × Node))
    (hrt : (lookupField kvs kRosTypeName).isDefined = true)
    (hgt : (lookupField kvs kGzTypeName).isDefined = true)
    (h1 : (lookupField kvs kTopicName).isDefined = false)
    (h2 : (lookupField kvs kRosTopicName).isDefined = false)
    (h3 : (lookupField kvs kGzTopicName).isDefined = false) :
    (∀ cfg, parseEntry (.map kvs) ≠ .ok (some cfg)) ∧
    ((lookupField kvs kDirection).isDefined = false →
      parseEntry (.map kvs) = .error .invalidNode) := by
  have hres : resolveTopicNames (.map kvs) = .error .invalidNode := by
    rw [Node.isDefined_eq_false] at h1 h2 h3
    unfold resolveTopicNames
    simp [Node.get_map, h1, h2, h3, Node.isDefined, asString]
  constructor
  · intro cfg h
    obtain ⟨_, _, _, _, dir, gzT, rosT, gzTy, rosTy, _, htop, _, _, _⟩ :=
      parseEntry_ok_some_inv kvs cfg h
    rw [htop] at hres
    cases hres
  · intro hd
    rw [Node.isDefined_eq_false] at h1 h2 h3 hd
    have hu : Node.isDefined Node.undefinedNode = false := rfl
    unfold parseEntry parseDirection
    simp [Node.isMap, Node.get_map, h1, h2, h3, hd, hrt, hgt, hu, hres]

/-- Witness for C9: the entry `{ros_type_name: A, gz_type_name: B}`
yields no `BridgeConfig` and ends in the conversion-exception path. -/
theorem parseEntry_no_topic_fields_witness :
    parseEntry (.map eNoTopic) ≠ .ok (some defaultConfig) ∧
    parseEntry (.map eNoTopic) = .error .invalidNode :=
  ⟨(parseEntry_no_topic_fields eNoTopic rfl rfl rfl rfl rfl).1 defaultConfig,
   (parseEntry_no_topic_fields eNoTopic rfl rfl rfl rfl rfl).2 rfl⟩

/-- Claim C10: whenever the loader returns a list, its length is at most
the number of elements of the top-level sequence (at most zero when the
top level is not a sequence), and the returned records are the
successful parses of a sublist of the input elements — each output
element comes from a distinct input element, in order. -/
theorem readFromYaml_output_bound (node : Node) (l : List BridgeConfig)
    (h : readFromYamlNode node = .ok l) :
    l.length ≤ node.topElems.length ∧
    ∃ ys, List.Sublist ys node.topElems ∧ ys.map parseOk = l.map some := by
  cases node with
  | seq xs =>
    have hl : l = xs.filterMap parseOk := readEntries_ok xs l h
    constructor
    · rw [hl]
      simpa [Node.topElems] using List.length_filterMap_le parseOk xs
    · refine ⟨xs.filter (fun x => (parseOk x).isSome), ?_, ?_⟩
      · exact List.filter_sublist xs
      · rw [filter_isSome_map_eq, hl]
  | undefinedNode =>
    obtain rfl : l = [] := by simpa using (by simpa [readFromYamlNode] using h : [] = l).symm
    exact ⟨by simp, [], by simp [Node.topElems], by simp⟩
  | scalar s =>
    obtain rfl : l = [] := by simpa using (by simpa [readFromYamlNode] using h : [] = l).symm
    exact ⟨by simp, [], by simp [Node.topElems], by simp⟩
  | map kvs =>
    obtain rfl : l = [] := by simpa using (by simpa [readFromYamlNode] using h : [] = l).symm
    exact ⟨by simp, [], by simp [Node.topElems], by simp⟩

/-- Witness for C10: a two-element sequence with one invalid entry
yields one record, within the length bound. -/
theorem readFromYaml_output_bound_witness :
    ([cClock] : List BridgeConfig).length ≤
      (Node.seq [Node.map eMutex, Node.map eClock]).topElems.length :=
  (readFromYaml_output_bound (Node.seq [Node.map eMutex, Node.map eClock]) [cClock] rfl).1
